import Mathlib

/-!
Shallow embedding of the temporal face/eye tracking engine of
`qeye03.py` (repository grayPupil), together with theorems settling the
spec claims about it.

Conventions of the embedding:
* A Python rectangle `[x, y, w, h]` of ints becomes `Rect` with `ℤ` fields.
* Python `//` on ints is floor division, embedded as `Int.fdiv`.
* Python floats holding exact decimal arithmetic (the exponential moving
  averages with coefficients 0.3/0.7 and 0.1/0.9, the alpha tables) are
  embedded as `ℚ`; `np.sqrt` and `np.arccos` values are embedded as `ℝ`
  via `Real.sqrt` and `Real.arccos`.  The claims proved here only compare
  these quantities against thresholds, which is exact.
* Python `int()` on a float truncates toward zero: `truncR` below.
* Python 3 `round` rounds half to even: `pyRound` below.  Its argument in
  the source is always `n/10` or `n/5` for an int `n`; for such values the
  binary float computed by Python is exactly on a half only when the
  rational value is, so the `ℚ` model agrees with the float behaviour.
* Functions that can raise a Python exception are embedded with
  `Except String` results.
-/

namespace QEye

open scoped Classical

/-- Axis-aligned integer rectangle `(x, y, w, h)` as used throughout
`qeye03.py` (candidate objects, faces, eyes are all lists `[x, y, w, h]`). -/
structure Rect where
  x : ℤ
  y : ℤ
  w : ℤ
  h : ℤ
  deriving DecidableEq

/-- Center x coordinate `x + w // 2` (Python floor division on ints). -/
def centerX (r : Rect) : ℤ := r.x + Int.fdiv r.w 2

/-- Center y coordinate `y + h // 2`. -/
def centerY (r : Rect) : ℤ := r.y + Int.fdiv r.h 2

/-- Source `calculate_distance` (qeye03.py lines 296-306): euclidean
distance between the centers of two rectangles. -/
noncomputable def calculate_distance (r1 r2 : Rect) : ℝ :=
  Real.sqrt (((centerX r1 - centerX r2 : ℤ) : ℝ) ^ 2 +
    ((centerY r1 - centerY r2 : ℤ) : ℝ) ^ 2)

/-- Python 3 `round` on an exact rational: round half to even. -/
def pyRound (q : ℚ) : ℤ :=
  if q - ⌊q⌋ < 1/2 then ⌊q⌋
  else if 1/2 < q - ⌊q⌋ then ⌊q⌋ + 1
  else if ⌊q⌋ % 2 = 0 then ⌊q⌋ else ⌊q⌋ + 1

/-- Quantization `round(n/10)*10` used by `find_most_consistent_object`
(qeye03.py line 340). -/
def quant10 (n : ℤ) : ℤ := pyRound ((n : ℚ) / 10) * 10

/-- The position key of the voting dictionary in
`find_most_consistent_object`: each coordinate quantized to a multiple
of 10. -/
abbrev PosKey := ℤ × ℤ × ℤ × ℤ

/-- Quantized key of a rectangle (qeye03.py line 340). -/
def posKey10 (r : Rect) : PosKey := (quant10 r.x, quant10 r.y, quant10 r.w, quant10 r.h)

/-- All objects of the history in iteration order of the double loop at
qeye03.py lines 335-341 (frames oldest to newest, objects in frame
order). -/
def allObjects : List (List Rect) → List Rect
  | [] => []
  | f :: fs => f ++ allObjects fs

/-- One step of building the Python dict key list: a key is appended at
its first occurrence and a later occurrence leaves the list unchanged
(Python dicts preserve insertion order). -/
def insertKey (ks : List PosKey) (k : PosKey) : List PosKey :=
  if k ∈ ks then ks else ks ++ [k]

/-- Keys of the voting dict `object_counts`, in insertion order. -/
def dictKeysAux : List PosKey → List Rect → List PosKey
  | acc, [] => acc
  | acc, o :: os => dictKeysAux (insertKey acc (posKey10 o)) os

/-- The count accumulated for one key: the number of history objects
whose quantized key equals it (`object_counts[pos_key]`). -/
def countKey (hist : List (List Rect)) (k : PosKey) : ℕ :=
  (allObjects hist).countP (fun o => decide (posKey10 o = k))

/-- The items of the dict `object_counts`, in insertion order. -/
def dictItems (hist : List (List Rect)) : List (PosKey × ℕ) :=
  (dictKeysAux [] (allObjects hist)).map (fun k => (k, countKey hist k))

/-- Python `max(items, key=lambda x: x[1])`: the first item of maximal
count (a later item replaces the current best only when strictly
greater). -/
def firstMaxFold (b : PosKey × ℕ) : List (PosKey × ℕ) → PosKey × ℕ
  | [] => b
  | i :: is => firstMaxFold (if b.2 < i.2 then i else b) is

/-- The `most_consistent = max(object_counts.items(), ...)` step of
qeye03.py line 345, `none` when the dict is empty. -/
def firstMaxItem (hist : List (List Rect)) : Option (PosKey × ℕ) :=
  match dictItems hist with
  | [] => none
  | i :: is => some (firstMaxFold i is)

/-- Inner loop of the resolution scan: first object of a frame whose
quantized key matches (qeye03.py lines 349-353). -/
def frameFind (k : PosKey) (f : List Rect) : Option Rect :=
  f.find? (fun o => decide (posKey10 o = k))

/-- Scan over frames, returning the first hit. -/
def scanNewestAux (k : PosKey) : List (List Rect) → Option Rect
  | [] => none
  | f :: fs =>
    match frameFind k f with
    | some o => some o
    | none => scanNewestAux k fs

/-- Resolution of a key to the most recent raw rectangle matching it:
the `for frame_objects in reversed(list(object_history))` scan of
qeye03.py lines 348-353.  The history list is ordered oldest first, so
the scan walks its reverse. -/
def scanNewest (hist : List (List Rect)) (k : PosKey) : Option Rect :=
  scanNewestAux k hist.reverse

/-- Source constant `min_consistency_frames = 10` (qeye03.py line 48). -/
def min_consistency_frames : ℕ := 10

/-- Source `find_most_consistent_object` (qeye03.py lines 327-354): vote
over quantized keys across the whole history; below the frame or vote
threshold return `none`, otherwise resolve the winning key to its most
recent raw rectangle. -/
def find_most_consistent_object (hist : List (List Rect)) : Option Rect :=
  if hist.length < min_consistency_frames then none
  else
    match firstMaxItem hist with
    | none => none
    | some m =>
      if min_consistency_frames ≤ m.2 then scanNewest hist m.1 else none

/-- Source constant `max_reset_frames = 40` (qeye03.py line 52). -/
def max_reset_frames : ℕ := 40

/-- Counter update of `should_reset_consistency` (qeye03.py lines
520-529): increment on an empty candidate set, reset to 0 otherwise. -/
def should_reset_step (counter : ℕ) (objs : List Rect) : ℕ :=
  if objs.isEmpty then counter + 1 else 0

/-- State touched by the main-loop consistency reset (qeye03.py lines
47-52 and 871-881): the reset counter, the bounded object history and
the last known consistent face. -/
structure TrackSt where
  counter : ℕ
  history : List (List Rect)
  lastFace : Option Rect
  deriving DecidableEq

/-- Append to a `deque(maxlen=cap)`: the oldest entries are evicted once
the capacity is reached. -/
def pushBounded (cap : ℕ) (l : List (List Rect)) (f : List Rect) : List (List Rect) :=
  if cap ≤ l.length then (l.drop (l.length + 1 - cap)) ++ [f] else l ++ [f]

/-- One frame of the main-loop reset logic (qeye03.py lines 871-881):
run `should_reset_consistency`, clear history and last face when it
fires, then append the current candidate set to the history.  Returns
the new state and whether the reset fired. -/
def consistencyResetPhase (s : TrackSt) (objs : List Rect) : TrackSt × Bool :=
  let c := should_reset_step s.counter objs
  let fire : Bool := max_reset_frames ≤ c
  let hist0 := if fire then [] else s.history
  let last0 := if fire then none else s.lastFace
  (⟨c, pushBounded 150 hist0 objs, last0⟩, fire)

/-- Iterate `consistencyResetPhase` over a list of per-frame candidate
sets; the boolean records whether the reset fired on any frame. -/
def runResetPhase (s : TrackSt) : List (List Rect) → TrackSt × Bool
  | [] => (s, false)
  | f :: fs =>
    ((runResetPhase (consistencyResetPhase s f).1 fs).1,
     (consistencyResetPhase s f).2 || (runResetPhase (consistencyResetPhase s f).1 fs).2)

/-- Truncation toward zero, Python `int()` on a float. -/
noncomputable def truncR (r : ℝ) : ℤ := if 0 ≤ r then ⌊r⌋ else ⌈r⌉

/-- Truncation toward zero on rationals, Python `int()` on an exact
decimal float. -/
def truncQ (q : ℚ) : ℤ := if 0 ≤ q then ⌊q⌋ else ⌈q⌉

/-- Euclidean distance between a float point and an integer point, as in
`haar_to_target` (qeye03.py line 398). -/
noncomputable def distQZ (p : ℚ × ℚ) (z : ℤ × ℤ) : ℝ :=
  Real.sqrt (((p.1 : ℝ) - (z.1 : ℝ)) ^ 2 + ((p.2 : ℝ) - (z.2 : ℝ)) ^ 2)

/-- The global tracker state read and written by
`update_consistent_face_position` (qeye03.py lines 26-39): the dynamic
average face area and the smoothed anchor position/size averages are
floats (exact decimals, embedded as `ℚ`), the previous-frame centers are
stored float/int centers. -/
structure FaceTrackSt where
  averageFaceSize : Option ℚ
  averageHaarX : Option ℚ
  averageHaarY : Option ℚ
  averageHaarW : Option ℚ
  averageHaarH : Option ℚ
  prevHaarCX : Option ℚ
  prevHaarCY : Option ℚ
  prevFaceCX : Option ℚ
  prevFaceCY : Option ℚ
  deriving DecidableEq

/-- The smoothed anchor center `(average_haar_x + (average_haar_w or 0)
// 2, average_haar_y + (average_haar_h or 0) // 2)` (qeye03.py lines
394-395), defined only when `average_haar_x` and `average_haar_y` are
both present — the source computes it inside exactly that conditional.
Float `// 2` is `math.floor(q/2)` as a float. -/
def haarAvgCenter (st : FaceTrackSt) : Option (ℚ × ℚ) :=
  match st.averageHaarX, st.averageHaarY with
  | some ax, some ay =>
    some (ax + (⌊(st.averageHaarW.getD 0) / 2⌋ : ℤ), ay + (⌊(st.averageHaarH.getD 0) / 2⌋ : ℤ))
  | _, _ => none

/-- The four previous-frame centers, present only when all four globals
are set (qeye03.py lines 408-409); the program always sets them
together (lines 513-516). -/
def prevCenters (st : FaceTrackSt) : Option (ℚ × ℚ × ℚ × ℚ) :=
  match st.prevHaarCX, st.prevHaarCY, st.prevFaceCX, st.prevFaceCY with
  | some a, some b, some c, some d => some (a, b, c, d)
  | _, _, _, _ => none

/-- First-strict-minimum scan with a real-valued key: `best = b; for y in
l: if key(y) < key(best): best = y`.  This is the shape of every
nearest-object loop of the source. -/
noncomputable def argminFold {α : Type} (key : α → ℝ) (b : α) : List α → α
  | [] => b
  | y :: l => argminFold key (if key y < key b then y else b) l

/-- The `best_match` loop of `update_consistent_face_position`
(qeye03.py lines 363-372): the current object closest to the most
consistent object, `none` for an empty candidate list. -/
noncomputable def bestMatch (mco : Rect) : List Rect → Option Rect
  | [] => none
  | o :: os => some (argminFold (fun o2 => calculate_distance mco o2) o os)

/-- Movement angle between two displacement vectors (qeye03.py lines
420-433): 0 when either vector is zero, otherwise the arccos of the
clamped normalized dot product, in degrees. -/
noncomputable def movementAngle (hdx hdy fdx fdy : ℝ) : ℝ :=
  if (hdx ≠ 0 ∨ hdy ≠ 0) ∧ (fdx ≠ 0 ∨ fdy ≠ 0) then
    let hm := Real.sqrt (hdx * hdx + hdy * hdy)
    let fm := Real.sqrt (fdx * fdx + fdy * fdy)
    if 0 < hm ∧ 0 < fm then
      Real.arccos (max (-1) (min 1 ((hdx * fdx + hdy * fdy) / (hm * fm)))) * 180 / Real.pi
    else 0
  else 0

/-- The movement angle computed by `update_consistent_face_position` for
a given state and current face: the source's `movement_angle` after
lines 389-436 (0 when the previous centers are absent; the combination
previous centers present with smoothed anchor absent raises in the
source and is mapped to 0 here, `update_consistent_face_position`
itself returns the error in that case before using this value). -/
noncomputable def movementAngleOf (st : FaceTrackSt) (face : Rect) : ℝ :=
  match prevCenters st with
  | none => 0
  | some (phx, phy, pfx, pfy) =>
    match haarAvgCenter st with
    | none => 0
    | some hc =>
      movementAngle ((hc.1 : ℝ) - (phx : ℝ)) ((hc.2 : ℝ) - (phy : ℝ))
        ((centerX face : ℝ) - (pfx : ℝ)) ((centerY face : ℝ) - (pfy : ℝ))

/-- The `both_moving_toward_target` test (qeye03.py lines 389-403):
false when the smoothed anchor is absent, otherwise true when the
anchor-average-to-target and face-to-target center distances differ by
less than 30. -/
noncomputable def bothMovingTowardTarget (st : FaceTrackSt) (face tgt : Rect) : Prop :=
  match haarAvgCenter st with
  | none => False
  | some hc => |distQZ hc (centerX tgt, centerY tgt) - calculate_distance face tgt| < 30

/-- Angle-based position alpha table for coordinated movement
(qeye03.py lines 439-452). -/
noncomputable def posAlphaAngleSrc (angle : ℝ) : ℚ :=
  if angle < 5 then 0.001
  else if angle < 10 then 0.005
  else if angle < 15 then 0.01
  else if angle < 25 then 0.02
  else if angle < 40 then 0.05
  else 0.1

/-- Distance-based position alpha table for uncoordinated movement
(qeye03.py lines 453-466). -/
noncomputable def posAlphaDistSrc (d : ℝ) : ℚ :=
  if d < 10 then 0.02
  else if d < 25 then 0.1
  else if d < 50 then 0.25
  else if d < 80 then 0.5
  else if d < 120 then 0.8
  else 0.95

/-- Distance-tiered default size alpha (qeye03.py lines 484-492). -/
noncomputable def baseSizeAlphaSrc (d : ℝ) : ℚ :=
  if d < 20 then 0.7
  else if d < 50 then 0.8
  else if d < 100 then 0.9
  else 0.95

/-- Size alpha selection (qeye03.py lines 494-504). -/
noncomputable def sizeAlphaSrc (sizeQuot targetSizeQuot : ℚ) (d : ℝ) : ℚ :=
  if sizeQuot < 0.8 then 0.95
  else if sizeQuot < 0.9 then 0.9
  else if 1.2 < targetSizeQuot ∧ 50 < d then 0.98
  else if 1.3 < sizeQuot then 0.8
  else baseSizeAlphaSrc d

/-- The pos_alpha chosen by the source (qeye03.py lines 438-466): the
angle table under coordinated movement, the distance table otherwise. -/
noncomputable def srcPosAlpha (st : FaceTrackSt) (face tgt : Rect) (angle : ℝ) : ℚ :=
  if bothMovingTowardTarget st face tgt then posAlphaAngleSrc angle
  else posAlphaDistSrc (calculate_distance face tgt)

/-- The updated `average_face_size` (qeye03.py lines 472-478):
exponential moving average with alpha 0.1 of the current face area,
initialized from the current area. -/
def newAverageFaceSize (st : FaceTrackSt) (face : Rect) : ℚ :=
  match st.averageFaceSize with
  | some a => 0.1 * ((face.w * face.h : ℤ) : ℚ) + 0.9 * a
  | none => ((face.w * face.h : ℤ) : ℚ)

/-- The rectangle built at qeye03.py lines 506-510: position blended
with pos_alpha, size blended with size_alpha, truncated to ints. -/
noncomputable def updatedRect (st : FaceTrackSt) (face tgt : Rect) : Rect :=
  let posAlpha : ℚ := srcPosAlpha st face tgt (movementAngleOf st face)
  let avgFS : ℚ := newAverageFaceSize st face
  let sizeAlpha : ℚ :=
    sizeAlphaSrc (((face.w * face.h : ℤ) : ℚ) / avgFS) (((tgt.w * tgt.h : ℤ) : ℚ) / avgFS)
      (calculate_distance face tgt)
  ⟨truncR ((posAlpha : ℝ) * (face.x : ℝ) + (1 - (posAlpha : ℝ)) * (tgt.x : ℝ)),
   truncR ((posAlpha : ℝ) * (face.y : ℝ) + (1 - (posAlpha : ℝ)) * (tgt.y : ℝ)),
   truncR ((sizeAlpha : ℝ) * (face.w : ℝ) + (1 - (sizeAlpha : ℝ)) * (tgt.w : ℝ)),
   truncR ((sizeAlpha : ℝ) * (face.h : ℝ) + (1 - (sizeAlpha : ℝ)) * (tgt.h : ℝ))⟩

/-- Tail of `update_consistent_face_position` after the movement-angle
block (qeye03.py lines 468-518): the average-size update feeding the
size ratios (a zero average raises `ZeroDivisionError` at line 481),
the blended rectangle, and the unconditional previous-center write-back
at lines 513-516, which raises `UnboundLocalError` when the smoothed
anchor is absent because `haar_avg_center_x` was never assigned. -/
noncomputable def faceUpdateTail (st : FaceTrackSt) (face tgt : Rect) :
    Except String (Option Rect × FaceTrackSt) :=
  if newAverageFaceSize st face = 0 then .error "ZeroDivisionError (line 481)"
  else
    match haarAvgCenter st with
    | none => .error "UnboundLocalError: haar_avg_center_x (line 513)"
    | some hc =>
      .ok (some (updatedRect st face tgt),
        { st with
          averageFaceSize := some (newAverageFaceSize st face)
          prevHaarCX := some hc.1
          prevHaarCY := some hc.2
          prevFaceCX := some ((centerX face : ℤ) : ℚ)
          prevFaceCY := some ((centerY face : ℤ) : ℚ) })

/-- Source `update_consistent_face_position` (qeye03.py lines 356-518).
The result is `Except` because the source can raise: when the previous
centers are set but the smoothed anchor is absent, line 412 reads the
unassigned local `haar_avg_center_x` (`UnboundLocalError`); the
remaining paths continue through `faceUpdateTail`.  The guard at line
360 returns the input face unchanged when the face, the candidate list
or the most consistent object is missing; otherwise the candidate
closest to the most consistent object becomes the target. -/
noncomputable def update_consistent_face_position (st : FaceTrackSt)
    (consistentFace : Option Rect) (currentObjects : List Rect)
    (mostConsistentObject : Option Rect) :
    Except String (Option Rect × FaceTrackSt) :=
  match consistentFace, mostConsistentObject with
  | some face, some mco =>
    if currentObjects = [] then .ok (some face, st)
    else
      match bestMatch mco currentObjects with
      | none => .ok (some face, st)
      | some tgt =>
        match prevCenters st with
        | some _ =>
          match haarAvgCenter st with
          | none => .error "UnboundLocalError: haar_avg_center_x (line 412)"
          | some _ => faceUpdateTail st face tgt
        | none => faceUpdateTail st face tgt
  | _, _ => .ok (consistentFace, st)

/-- The global anchor (Haar cascade) state read and written by
`update_haar_averages` and `calculate_adaptive_haar_interval`
(qeye03.py lines 19-32): the float position/size averages, the last raw
detection `haar_last_position` and the stored (smoothed, int-rounded)
`haar_face_position` the main loop keeps. -/
structure HaarSt where
  averageHaarX : Option ℚ
  averageHaarY : Option ℚ
  averageHaarW : Option ℚ
  averageHaarH : Option ℚ
  haarLastPosition : Option Rect
  haarFacePosition : Option Rect
  deriving DecidableEq

/-- Smoothed anchor center of the `HaarSt` view, same formula as
`haarAvgCenter` (qeye03.py lines 663-664). -/
def haarAvgCenterH (st : HaarSt) : Option (ℚ × ℚ) :=
  match st.averageHaarX, st.averageHaarY with
  | some ax, some ay =>
    some (ax + (⌊(st.averageHaarW.getD 0) / 2⌋ : ℤ), ay + (⌊(st.averageHaarH.getD 0) / 2⌋ : ℤ))
  | _, _ => none

/-- Source `update_haar_averages` (qeye03.py lines 688-714): exponential
moving average with alpha 0.3 of the raw detection into the four float
averages (initialized directly from the first observation), update of
`haar_last_position` to the raw detection, and the smoothed position
truncated to ints as return value.  The source only tests
`average_haar_x` for presence; the program sets the four averages
together, so the `getD 0` defaults are never exercised. -/
def update_haar_averages (st : HaarSt) (det : Option Rect) : HaarSt × Option Rect :=
  match det with
  | none => (st, none)
  | some dRect =>
    let a4 : ℚ × ℚ × ℚ × ℚ :=
      match st.averageHaarX with
      | some ax0 =>
        (0.3 * (dRect.x : ℚ) + 0.7 * ax0,
         0.3 * (dRect.y : ℚ) + 0.7 * st.averageHaarY.getD 0,
         0.3 * (dRect.w : ℚ) + 0.7 * st.averageHaarW.getD 0,
         0.3 * (dRect.h : ℚ) + 0.7 * st.averageHaarH.getD 0)
      | none => ((dRect.x : ℚ), (dRect.y : ℚ), (dRect.w : ℚ), (dRect.h : ℚ))
    ({ st with
        averageHaarX := some a4.1
        averageHaarY := some a4.2.1
        averageHaarW := some a4.2.2.1
        averageHaarH := some a4.2.2.2
        haarLastPosition := some dRect },
     some ⟨truncQ a4.1, truncQ a4.2.1, truncQ a4.2.2.1, truncQ a4.2.2.2⟩)

/-- A successful anchor detection event in the main loop (qeye03.py
lines 768-772): run `update_haar_averages` on the raw detection and
store the smoothed int position in `haar_face_position`. -/
def haarDetectionEvent (st : HaarSt) (det : Rect) : HaarSt :=
  let p := update_haar_averages st (some det)
  { p.1 with haarFacePosition := p.2 }

/-- The `distance_from_avg` of `calculate_adaptive_haar_interval`
(qeye03.py lines 662-667): center distance between the argument
position and the float smoothed averages, 0 when they are absent. -/
noncomputable def distFromAvgOf (st : HaarSt) (cur : Rect) : ℝ :=
  match haarAvgCenterH st with
  | some c => distQZ c (centerX cur, centerY cur)
  | none => 0

/-- Source `calculate_adaptive_haar_interval` (qeye03.py lines 642-686):
0.5 with no argument position or no previous raw position; otherwise a
tier chosen from `position_change` (center distance between the
argument position and `haar_last_position`) and `distance_from_avg`.
The thresholds are 20 (the configurable
`haar_position_change_threshold`), `0.5 * 20 = 10` and `0.2 * 20 = 4`
for `position_change` and 30 / 15 / 8 for `distance_from_avg`. -/
noncomputable def calculate_adaptive_haar_interval (st : HaarSt) (hfp : Option Rect) : ℝ :=
  match hfp with
  | none => 0.5
  | some cur =>
    match st.haarLastPosition with
    | none => 0.5
    | some last =>
      if 20 < calculate_distance cur last ∨ 30 < distFromAvgOf st cur then 0.1
      else if 10 < calculate_distance cur last ∨ 15 < distFromAvgOf st cur then 0.2
      else if 4 < calculate_distance cur last ∨ 8 < distFromAvgOf st cur then 0.4
      else 1.0

/-- Main-loop scheduling gate (qeye03.py lines 764-767): the anchor
detector runs only when the elapsed time since the last invocation is
at least the adaptive interval computed from the stored
`haar_face_position`. -/
noncomputable def haarDetectorDue (now lastDetectionTime : ℝ) (st : HaarSt) : Prop :=
  calculate_adaptive_haar_interval st st.haarFacePosition ≤ now - lastDetectionTime

/-- Main-loop reconnection (qeye03.py lines 891-906), reached when no
consistent face exists but a last known face does and the candidate set
is non-empty: the candidate nearest to the last known face by center
distance is adopted when that distance is strictly below 150. -/
noncomputable def reconnectLostFace (lastFace : Rect) (currentObjects : List Rect) : Option Rect :=
  match currentObjects with
  | [] => none
  | o :: os =>
    let nearest := argminFold (fun o2 => calculate_distance lastFace o2) o os
    if calculate_distance lastFace nearest < 150 then some nearest else none

/-- Source `update_eye_positions` (qeye03.py lines 716-753): with empty
consistent or current eye lists return the consistent eyes unchanged;
otherwise each consistent eye is replaced outright by the current-frame
detection nearest to it by center distance (the `face_rect` parameter
is unpacked but unused by the computation). -/
noncomputable def update_eye_positions (consistentEyes currentEyes : List Rect)
    (faceRect : Rect) : List Rect :=
  if consistentEyes = [] ∨ currentEyes = [] then consistentEyes
  else
    consistentEyes.map (fun e =>
      match currentEyes with
      | [] => e
      | c :: cs => argminFold (fun c2 => calculate_distance e c2) c cs)

/-- Heatmap state (qeye03.py lines 42-44): the float grid and the anchor
rectangle it was last aligned to.  The numpy array of shape `(H, W)` is
embedded as a total function on `ℤ × ℤ`; the array is its restriction
to rows `[0, H)` and columns `[0, W)`, and the claims below only speak
about cells in that range (with candidate rectangles inside the frame,
so that numpy negative-index wrap-around cannot occur). -/
structure HeatmapSt where
  heatmap : Option (ℤ → ℤ → ℝ)
  heatmapHaarPosition : Option Rect

/-- Grid cell accessor; an absent grid reads as zero. -/
noncomputable def gridVal (st : HeatmapSt) (i j : ℤ) : ℝ :=
  (st.heatmap.getD (fun _ _ => 0)) i j

/-- The 5-px-padded anchor mask of `update_heatmap` (qeye03.py lines
598-608): rows `[padded_y, padded_y + padded_h)`, columns
`[padded_x, padded_x + padded_w)` of the `(H, W)` grid, with the padded
rectangle clipped to the frame. -/
def heatMask (a : Rect) (W H : ℤ) (i j : ℤ) : Prop :=
  max 0 (a.y - 5) ≤ i ∧ i < max 0 (a.y - 5) + min (H - max 0 (a.y - 5)) (a.h + 10) ∧
  max 0 (a.x - 5) ≤ j ∧ j < max 0 (a.x - 5) + min (W - max 0 (a.x - 5)) (a.w + 10)

/-- The test at qeye03.py lines 622-624: the candidate center lies
inside the padded area (bounds inclusive on both ends, as in the
source). -/
def heatCenterCond (a : Rect) (W H : ℤ) (o : Rect) : Prop :=
  max 0 (a.x - 5) ≤ centerX o ∧
  centerX o ≤ max 0 (a.x - 5) + min (W - max 0 (a.x - 5)) (a.w + 10) ∧
  max 0 (a.y - 5) ≤ centerY o ∧
  centerY o ≤ max 0 (a.y - 5) + min (H - max 0 (a.y - 5)) (a.h + 10)

/-- The cell lies inside the bounding box of `o` (the slice written at
qeye03.py lines 636-637). -/
def inBBox (o : Rect) (i j : ℤ) : Prop :=
  o.y ≤ i ∧ i < o.y + o.h ∧ o.x ≤ j ∧ j < o.x + o.w

/-- Whether candidate `o` adds heat at cell `(i, j)` (qeye03.py lines
617-637): its center lies in the padded area and the cell in its
bounding box. -/
def addsHeat (a : Rect) (W H : ℤ) (o : Rect) (i j : ℤ) : Prop :=
  heatCenterCond a W H o ∧ inBBox o i j

/-- The decay pass of `update_heatmap` (qeye03.py lines 605-614): cells
inside the padded anchor mask keep 98 percent of their value, cells
outside keep 10 percent. -/
noncomputable def heatDecay (a : Rect) (W H : ℤ) (g : ℤ → ℤ → ℝ) : ℤ → ℤ → ℝ :=
  fun i j => if heatMask a W H i j then 0.98 * g i j else 0.1 * g i j

/-- One candidate contribution (qeye03.py lines 617-637): when its
center lies in the padded area, add
`0.4 * (1 - 0.1 * min(dist_to_center / max_dist, 1))` over its bounding
box. -/
noncomputable def heatAddStep (a : Rect) (W H : ℤ) (g : ℤ → ℤ → ℝ) (o : Rect) : ℤ → ℤ → ℝ :=
  if heatCenterCond a W H o then
    fun i j =>
      if inBBox o i j then
        g i j + 0.4 * (1 - min
          (Real.sqrt (((centerX o - centerX a : ℤ) : ℝ) ^ 2 +
              ((centerY o - centerY a : ℤ) : ℝ) ^ 2) /
            Real.sqrt (((Int.fdiv a.w 2 + 5 : ℤ) : ℝ) ^ 2 +
              ((Int.fdiv a.h 2 + 5 : ℤ) : ℝ) ^ 2)) 1 * 0.1)
      else g i j
  else g

/-- The grid surviving the reset check (qeye03.py lines 579-596): if a
stored reference anchor exists and the current anchor center moved
strictly more than `heatmap_reset_distance = 100` away, the grid is
discarded; a discarded or absent grid is then reallocated as zeros by
the caller. -/
noncomputable def heatGridAfterReset (st : HeatmapSt) (a : Rect) : Option (ℤ → ℤ → ℝ) :=
  match st.heatmapHaarPosition with
  | some old => if 100 < calculate_distance a old then none else st.heatmap
  | none => st.heatmap

/-- Source `update_heatmap` (qeye03.py lines 568-640): no-op without an
anchor; otherwise run the reset check (reallocating a discarded or
absent grid as zeros), decay the grid, fold the heat contributions of
the current candidates over it, and store the current anchor as the new
reference. -/
noncomputable def update_heatmap (st : HeatmapSt) (haarFacePosition : Option Rect)
    (currentObjects : List Rect) (W H : ℤ) : HeatmapSt :=
  match haarFacePosition with
  | none => st
  | some a =>
    { heatmap := some (currentObjects.foldl (heatAddStep a W H)
        (heatDecay a W H ((heatGridAfterReset st a).getD (fun _ _ => 0)))),
      heatmapHaarPosition := some a }

/-! Definitions written from the words of the specification (not from
the source), used to compare the source functions against the spec. -/

/-- Spec table for coordinated movement: pos_alpha from the movement
angle, thresholds 5, 10, 15, 25, 40 degrees (spec section 4.5). -/
noncomputable def posAlphaCoordSpec (angle : ℝ) : ℚ :=
  if angle < 5 then 0.001
  else if angle < 10 then 0.005
  else if angle < 15 then 0.01
  else if angle < 25 then 0.02
  else if angle < 40 then 0.05
  else 0.1

/-- Spec table for uncoordinated movement: pos_alpha from the tracked
center to target center distance, thresholds 10, 25, 50, 80, 120 px. -/
noncomputable def posAlphaUncoordSpec (d : ℝ) : ℚ :=
  if d < 10 then 0.02
  else if d < 25 then 0.1
  else if d < 50 then 0.25
  else if d < 80 then 0.5
  else if d < 120 then 0.8
  else 0.95

/-- Spec condition for coordinated movement: the smoothed anchor exists
and `|distance(anchor-avg-center, target-center) - distance(tracked-center,
target-center)| < 30`. -/
noncomputable def coordinatedSpec (st : FaceTrackSt) (face tgt : Rect) : Prop :=
  ∃ c, haarAvgCenter st = some c ∧
    |distQZ c (centerX tgt, centerY tgt) - calculate_distance face tgt| < 30

/-- The pos_alpha the spec prescribes for a state, tracked face and
target: the coordinated table on the movement angle when movement is
coordinated, the distance table otherwise. -/
noncomputable def posAlphaSel (st : FaceTrackSt) (face tgt : Rect) : ℚ :=
  if coordinatedSpec st face tgt then posAlphaCoordSpec (movementAngleOf st face)
  else posAlphaUncoordSpec (calculate_distance face tgt)

/-- Spec interval table (claim C6): 0.1 s for position_change > 20 or
distance_from_avg > 30; 0.2 s for > 10 or > 15; 0.4 s for > 4 or > 8;
1.0 s otherwise. -/
noncomputable def intervalTableSpec (pc dfa : ℝ) : ℝ :=
  if 20 < pc ∨ 30 < dfa then 0.1
  else if 10 < pc ∨ 15 < dfa then 0.2
  else if 4 < pc ∨ 8 < dfa then 0.4
  else 1.0

/-- The adaptive interval as claim C6 words it: `position_change` is the
center distance between the current raw anchor (the most recent raw
detection, `haar_last_position`) and the last raw position, and
`distance_from_avg` is the center distance between the current raw
anchor and the smoothed anchor; 0.5 s with no prior raw position. -/
noncomputable def claimC6Interval (st : HaarSt) : ℝ :=
  match st.haarLastPosition with
  | none => 0.5
  | some raw =>
    let pc := calculate_distance raw raw
    let dfa : ℝ :=
      match haarAvgCenterH st with
      | some c => distQZ c (centerX raw, centerY raw)
      | none => 0
    intervalTableSpec pc dfa

/-- Frame bounds predicate of claim C8: `x ≥ 0, y ≥ 0, x + w ≤ W,
y + h ≤ H`. -/
def insideFrame (W H : ℤ) (r : Rect) : Prop :=
  0 ≤ r.x ∧ 0 ≤ r.y ∧ r.x + r.w ≤ W ∧ r.y + r.h ≤ H

/-! Concrete fixtures used by witnesses and counterexamples. -/

/-- A 50×50 rectangle at (100, 100). -/
def faceA : Rect := ⟨100, 100, 50, 50⟩

/-- Tracker state with the smoothed anchor present at `faceA` and no
previous centers and no average face size. -/
def stAnchorAtFaceA : FaceTrackSt :=
  ⟨none, some 100, some 100, some 50, some 50, none, none, none, none⟩

/-- Tracker state with the smoothed anchor absent (the failing input of
claim C5). -/
def stNoAnchor : FaceTrackSt :=
  ⟨none, none, none, none, none, none, none, none, none⟩

/-- Tracker state driving claim C8's counterexample: large average face
area, smoothed anchor at `(290, 30, 20, 40)`, no previous centers. -/
def stC8 : FaceTrackSt :=
  ⟨some 100000, some 290, some 30, some 20, some 40, none, none, none, none⟩

/-- The tracked face of claim C8's counterexample: right edge at 400. -/
def faceC8 : Rect := ⟨200, 100, 200, 100⟩

/-- The candidate of claim C8's counterexample: same center as
`faceC8`, much smaller, inside the 400×300 frame. -/
def targetC8 : Rect := ⟨290, 100, 20, 100⟩

/-- The out-of-bounds rectangle produced by the update in claim C8's
counterexample. -/
def resultC8 : Rect := ⟨288, 100, 191, 100⟩

/-- Anchor state before any detection. -/
def stH0 : HaarSt := ⟨none, none, none, none, none, none⟩

/-- First raw anchor detection of claim C6's counterexample. -/
def rawR1 : Rect := ⟨0, 100, 40, 40⟩

/-- Second raw anchor detection of claim C6's counterexample. -/
def rawR2 : Rect := ⟨35, 100, 40, 40⟩

/-- The anchor state the source reaches after observing `rawR1` then
`rawR2`: averages `0.3 * rawR2 + 0.7 * rawR1`, last raw position
`rawR2`, stored smoothed position the int truncation of the
averages. -/
def stH2 : HaarSt := ⟨some 10.5, some 100, some 40, some 40, some rawR2, some ⟨10, 100, 40, 40⟩⟩

/-- Anchor rectangle of the heatmap witness. -/
def anchorC9 : Rect := ⟨50, 50, 20, 20⟩

/-- Heatmap state with a constant-1 grid referenced to `anchorC9`. -/
noncomputable def stHeat1 : HeatmapSt := ⟨some (fun _ _ => 1), some anchorC9⟩

/-! Helper lemmas. -/

theorem argminFold_mem {α : Type} (key : α → ℝ) (b : α) (l : List α) :
    argminFold key b l = b ∨ argminFold key b l ∈ l := by
  induction l generalizing b with
  | nil => exact Or.inl rfl
  | cons y l ih =>
    rw [argminFold]
    by_cases hk : key y < key b
    · rw [if_pos hk]
      rcases ih y with h | h
      · exact Or.inr (by rw [h]; exact List.mem_cons_self y l)
      · exact Or.inr (List.mem_cons_of_mem y h)
    · rw [if_neg hk]
      rcases ih b with h | h
      · exact Or.inl h
      · exact Or.inr (List.mem_cons_of_mem y h)

theorem argminFold_le_init {α : Type} (key : α → ℝ) (b : α) (l : List α) :
    key (argminFold key b l) ≤ key b := by
  induction l generalizing b with
  | nil => exact le_refl _
  | cons y l ih =>
    rw [argminFold]
    refine le_trans (ih _) ?_
    by_cases hk : key y < key b
    · rw [if_pos hk]; exact le_of_lt hk
    · rw [if_neg hk]

theorem argminFold_le {α : Type} (key : α → ℝ) (b : α) (l : List α) :
    ∀ z ∈ l, key (argminFold key b l) ≤ key z := by
  induction l generalizing b with
  | nil => intro z hz; exact absurd hz (List.not_mem_nil z)
  | cons y l ih =>
    intro z hz
    rw [argminFold]
    rcases List.mem_cons.mp hz with rfl | hz
    · refine le_trans (argminFold_le_init key _ l) ?_
      by_cases hk : key z < key b
      · rw [if_pos hk]
      · rw [if_neg hk]; exact le_of_not_lt hk
    · exact ih _ z hz

theorem calculate_distance_nonneg (r1 r2 : Rect) : 0 ≤ calculate_distance r1 r2 :=
  Real.sqrt_nonneg _

theorem calculate_distance_self (r : Rect) : calculate_distance r r = 0 := by
  simp [calculate_distance]

theorem calculate_distance_eval (r1 r2 : Rect) (d : ℝ) (h : 0 ≤ d)
    (hsq : (((centerX r1 - centerX r2 : ℤ) : ℝ)) ^ 2 +
      ((centerY r1 - centerY r2 : ℤ) : ℝ) ^ 2 = d ^ 2) :
    calculate_distance r1 r2 = d := by
  rw [calculate_distance, hsq, Real.sqrt_sq h]

theorem distQZ_eval (p : ℚ × ℚ) (z : ℤ × ℤ) (d : ℝ) (h : 0 ≤ d)
    (hsq : ((p.1 : ℝ) - (z.1 : ℝ)) ^ 2 + ((p.2 : ℝ) - (z.2 : ℝ)) ^ 2 = d ^ 2) :
    distQZ p z = d := by
  rw [distQZ, hsq, Real.sqrt_sq h]

theorem truncR_intCast (n : ℤ) : truncR (n : ℝ) = n := by
  rw [truncR]
  rcases le_or_lt (0 : ℝ) (n : ℝ) with h | h
  · rw [if_pos h, Int.floor_intCast]
  · rw [if_neg (not_le.mpr h), Int.ceil_intCast]

theorem truncR_eval (r : ℝ) (n : ℤ) (h0 : (n : ℝ) ≤ r) (h1 : r < n + 1) (hn : 0 ≤ n) :
    truncR r = n := by
  have hr : 0 ≤ r := le_trans (by exact_mod_cast hn) h0
  rw [truncR, if_pos hr]
  exact Int.floor_eq_iff.mpr ⟨h0, h1⟩

theorem dist_faceA_shift140 : calculate_distance faceA ⟨240, 100, 50, 50⟩ = 140 := by
  apply calculate_distance_eval _ _ _ (by norm_num)
  have h1 : centerX faceA - centerX ⟨240, 100, 50, 50⟩ = -140 := by decide
  have h2 : centerY faceA - centerY ⟨240, 100, 50, 50⟩ = 0 := by decide
  rw [h1, h2]
  norm_num

theorem dist_faceA_shift160 : calculate_distance faceA ⟨260, 100, 50, 50⟩ = 160 := by
  apply calculate_distance_eval _ _ _ (by norm_num)
  have h1 : centerX faceA - centerX ⟨260, 100, 50, 50⟩ = -160 := by decide
  have h2 : centerY faceA - centerY ⟨260, 100, 50, 50⟩ = 0 := by decide
  rw [h1, h2]
  norm_num

theorem reconnect_eval_shift140 :
    reconnectLostFace faceA [⟨240, 100, 50, 50⟩] = some ⟨240, 100, 50, 50⟩ := by
  rw [reconnectLostFace]
  show (if calculate_distance faceA (argminFold _ ⟨240, 100, 50, 50⟩ []) < 150 then _ else _) = _
  rw [argminFold, dist_faceA_shift140, if_pos (by norm_num)]

/-- C4: on a frame with no consistent detection but a last-known face
and a non-empty candidate set, the nearest candidate by center distance
is adopted as the reconnected face exactly when that distance is
strictly below 150 px; a candidate shifted 140 px from the last face
reconnects, one shifted 160 px does not. -/
theorem reconnection_adopts_nearest_iff_within_150px :
    (∀ lastFace objs o, reconnectLostFace lastFace objs = some o →
      o ∈ objs ∧ calculate_distance lastFace o < 150 ∧
        ∀ o2 ∈ objs, calculate_distance lastFace o ≤ calculate_distance lastFace o2) ∧
    (∀ lastFace objs, (∀ o ∈ objs, 150 ≤ calculate_distance lastFace o) →
      reconnectLostFace lastFace objs = none) ∧
    reconnectLostFace faceA [⟨240, 100, 50, 50⟩] = some ⟨240, 100, 50, 50⟩ ∧
    reconnectLostFace faceA [⟨260, 100, 50, 50⟩] = none := by
  refine ⟨?_, ?_, reconnect_eval_shift140, ?_⟩
  · intro lastFace objs o h
    cases objs with
    | nil => exact absurd h (by rw [reconnectLostFace]; exact fun hc => Option.noConfusion hc)
    | cons a as =>
      rw [reconnectLostFace] at h
      by_cases hd :
          calculate_distance lastFace (argminFold (fun o2 => calculate_distance lastFace o2) a as) < 150
      · rw [if_pos hd] at h
        have ho : o = argminFold (fun o2 => calculate_distance lastFace o2) a as :=
          (Option.some.injEq _ _ ▸ h).symm
        subst ho
        refine ⟨?_, hd, ?_⟩
        · rcases argminFold_mem (fun o2 => calculate_distance lastFace o2) a as with hm | hm
          · rw [hm]; exact List.mem_cons_self a as
          · exact List.mem_cons_of_mem a hm
        · intro o2 ho2
          rcases List.mem_cons.mp ho2 with rfl | ho2
          · exact argminFold_le_init (fun o3 => calculate_distance lastFace o3) o2 as
          · exact argminFold_le (fun o3 => calculate_distance lastFace o3) a as o2 ho2
      · rw [if_neg hd] at h
        exact absurd h (fun hc => Option.noConfusion hc)
  · intro lastFace objs h
    cases objs with
    | nil => rw [reconnectLostFace]
    | cons a as =>
      rw [reconnectLostFace]
      apply if_neg
      apply not_lt.mpr
      apply h
      rcases argminFold_mem (fun o2 => calculate_distance lastFace o2) a as with hm | hm
      · rw [hm]; exact List.mem_cons_self a as
      · exact List.mem_cons_of_mem a hm
  · rw [reconnectLostFace]
    show (if calculate_distance faceA (argminFold _ ⟨260, 100, 50, 50⟩ []) < 150 then _ else _) = _
    rw [argminFold, dist_faceA_shift160, if_neg (by norm_num)]

/-- Witness for C4: the general characterization applied at the
concrete 140-px-shifted candidate. -/
theorem reconnection_adopts_nearest_iff_within_150px_witness :
    (⟨240, 100, 50, 50⟩ : Rect) ∈ [(⟨240, 100, 50, 50⟩ : Rect)] ∧
      calculate_distance faceA ⟨240, 100, 50, 50⟩ < 150 :=
  have h := reconnection_adopts_nearest_iff_within_150px.1 faceA
    [⟨240, 100, 50, 50⟩] ⟨240, 100, 50, 50⟩ reconnect_eval_shift140
  ⟨h.1, h.2.1⟩

/-- C10: with a non-empty current eye list, every consistent eye is
replaced exactly (no interpolation) by the current-frame detection
nearest to it by center distance, independently, with no distance
threshold and no exclusivity — two consistent eyes tracked against a
single detection both become that detection; with an empty current list
or no consistent eyes the consistent eyes are returned unchanged. -/
theorem eye_update_snaps_to_nearest_detection :
    (∀ consistentEyes faceRect, update_eye_positions consistentEyes [] faceRect = consistentEyes) ∧
    (∀ currentEyes faceRect, update_eye_positions [] currentEyes faceRect = []) ∧
    (∀ consistentEyes c cs faceRect,
      update_eye_positions consistentEyes (c :: cs) faceRect =
        consistentEyes.map (fun e => argminFold (fun c2 => calculate_distance e c2) c cs)) ∧
    (∀ e c cs,
      argminFold (fun c2 => calculate_distance e c2) c cs ∈ c :: cs ∧
        ∀ c2 ∈ c :: cs,
          calculate_distance e (argminFold (fun c3 => calculate_distance e c3) c cs) ≤
            calculate_distance e c2) ∧
    (∀ e1 e2 d faceRect, update_eye_positions [e1, e2] [d] faceRect = [d, d]) := by
  refine ⟨?_, ?_, ?_, ?_, ?_⟩
  · intro ce faceRect
    rw [update_eye_positions, if_pos (Or.inr rfl)]
  · intro cur faceRect
    rw [update_eye_positions, if_pos (Or.inl rfl)]
  · intro ce c cs faceRect
    by_cases hce : ce = []
    · subst hce
      rw [update_eye_positions, if_pos (Or.inl rfl)]
      rfl
    · rw [update_eye_positions, if_neg (by simp [hce])]
  · intro e c cs
    constructor
    · rcases argminFold_mem (fun c2 => calculate_distance e c2) c cs with hm | hm
      · rw [hm]; exact List.mem_cons_self c cs
      · exact List.mem_cons_of_mem c hm
    · intro c2 hc2
      rcases List.mem_cons.mp hc2 with rfl | hc2
      · exact argminFold_le_init (fun c3 => calculate_distance e c3) c2 cs
      · exact argminFold_le (fun c3 => calculate_distance e c3) c cs c2 hc2
  · intro e1 e2 d faceRect
    rw [update_eye_positions, if_neg (by simp)]
    rfl

theorem runResetPhase_append (s : TrackSt) (l1 l2 : List (List Rect)) :
    runResetPhase s (l1 ++ l2) =
      ((runResetPhase (runResetPhase s l1).1 l2).1,
       (runResetPhase s l1).2 || (runResetPhase (runResetPhase s l1).1 l2).2) := by
  induction l1 generalizing s with
  | nil => simp [runResetPhase]
  | cons f fs ih =>
    rw [List.cons_append, runResetPhase, runResetPhase, ih]
    simp [Bool.or_assoc]

theorem runResetPhase_empty_noFire (k : ℕ) :
    ∀ s : TrackSt, s.counter + k < 40 →
      (runResetPhase s (List.replicate k [])).2 = false ∧
      (runResetPhase s (List.replicate k [])).1.counter = s.counter + k ∧
      (runResetPhase s (List.replicate k [])).1.lastFace = s.lastFace := by
  induction k with
  | zero =>
    intro s _
    simp [runResetPhase]
  | succ k ih =>
    intro s h
    have hle : ¬ (max_reset_frames ≤ s.counter + 1) := by
      rw [max_reset_frames]; omega
    have hstep : consistencyResetPhase s [] =
        (⟨s.counter + 1, pushBounded 150 s.history [], s.lastFace⟩, false) := by
      simp [consistencyResetPhase, should_reset_step, hle]
    rw [List.replicate_succ, runResetPhase, hstep]
    have hrec := ih ⟨s.counter + 1, pushBounded 150 s.history [], s.lastFace⟩
      (by show s.counter + 1 + k < 40; omega)
    refine ⟨hrec.1, ?_, hrec.2.2⟩
    show (runResetPhase ⟨s.counter + 1, pushBounded 150 s.history [], s.lastFace⟩
        (List.replicate k [])).1.counter = s.counter + (k + 1)
    rw [hrec.2.1]
    show s.counter + 1 + k = s.counter + (k + 1)
    omega

theorem consistencyResetPhase_fire (t : TrackSt) (ht : t.counter = 39) :
    consistencyResetPhase t [] = (⟨40, [[]], none⟩, true) := by
  have hc : should_reset_step t.counter [] = 40 := by
    rw [should_reset_step, ht]
    rfl
  simp only [consistencyResetPhase, hc]
  norm_num [max_reset_frames, pushBounded]

theorem runResetPhase_fire_at_40 (s : TrackSt) (h : s.counter = 0) :
    runResetPhase s (List.replicate 40 []) = (⟨40, [[]], none⟩, true) := by
  have h39 := runResetPhase_empty_noFire 39 s (by omega)
  have hc39 : (runResetPhase s (List.replicate 39 [])).1.counter = 39 := by
    rw [h39.2.1, h]
  have hstep := consistencyResetPhase_fire _ hc39
  have hsplit : (List.replicate 40 ([] : List Rect)) = List.replicate 39 [] ++ [[]] := by
    decide
  rw [hsplit, runResetPhase_append, h39.1]
  have hone : runResetPhase (runResetPhase s (List.replicate 39 [])).1 [[]] =
      (⟨40, [[]], none⟩, true) := by
    rw [runResetPhase, hstep]
    rfl
  rw [hone]
  rfl

/-- C3: the reset counter increments on every empty candidate frame and
resets to 0 on every non-empty one; from a zero counter, 39 consecutive
empty frames never fire the reset and leave the last known face
untouched, while 40 consecutive empty frames fire it, clearing the last
known face and the history (the cleared history then receives the 40th
frame's empty candidate set). -/
theorem reset_after_40_empty_frames :
    (∀ (s : TrackSt) objs,
      (consistencyResetPhase s objs).1.counter = if objs.isEmpty then s.counter + 1 else 0) ∧
    (∀ s : TrackSt, s.counter = 0 →
      (runResetPhase s (List.replicate 39 [])).2 = false ∧
      (runResetPhase s (List.replicate 39 [])).1.lastFace = s.lastFace ∧
      runResetPhase s (List.replicate 40 []) = (⟨40, [[]], none⟩, true)) := by
  constructor
  · intro s objs
    simp [consistencyResetPhase, should_reset_step]
  · intro s h
    have h39 := runResetPhase_empty_noFire 39 s (by omega)
    exact ⟨h39.1, h39.2.2, runResetPhase_fire_at_40 s h⟩

/-- Witness for C3 at a concrete starting state. -/
theorem reset_after_40_empty_frames_witness :
    (runResetPhase ⟨0, [[faceA]], some faceA⟩ (List.replicate 39 [])).2 = false ∧
    runResetPhase ⟨0, [[faceA]], some faceA⟩ (List.replicate 40 []) = (⟨40, [[]], none⟩, true) :=
  ⟨(reset_after_40_empty_frames.2 ⟨0, [[faceA]], some faceA⟩ rfl).1,
   (reset_after_40_empty_frames.2 ⟨0, [[faceA]], some faceA⟩ rfl).2.2⟩

/-- Counterexample to C7: running 40 consecutive empty frames from a
zero counter clears the history (the reset fires on the 40th frame) yet
leaves the counter at 40, not 0 — the source never resets the counter
when it clears the history, only on a non-empty candidate frame. -/
theorem history_cleared_with_counter_at_40 :
    (runResetPhase ⟨0, [[⟨10, 20, 30, 40⟩]], some ⟨10, 20, 30, 40⟩⟩ (List.replicate 40 [])).2 =
        true ∧
    (runResetPhase ⟨0, [[⟨10, 20, 30, 40⟩]], some ⟨10, 20, 30, 40⟩⟩
        (List.replicate 40 [])).1.history = [[]] ∧
    (runResetPhase ⟨0, [[⟨10, 20, 30, 40⟩]], some ⟨10, 20, 30, 40⟩⟩
        (List.replicate 40 [])).1.counter = 40 ∧
    ¬ (runResetPhase ⟨0, [[⟨10, 20, 30, 40⟩]], some ⟨10, 20, 30, 40⟩⟩
        (List.replicate 40 [])).1.counter = 0 := by
  decide

/-- C7 as amended: clearing the history does not clear the counter — on
any frame where the reset fires the updated counter is at least
`max_reset_frames`, and the counter is 0 exactly on frames with a
non-empty candidate set. -/
theorem reset_counter_not_cleared_with_history :
    ∀ (s : TrackSt) objs,
      ((consistencyResetPhase s objs).2 = true →
        max_reset_frames ≤ (consistencyResetPhase s objs).1.counter) ∧
      ((consistencyResetPhase s objs).1.counter = 0 ↔ objs ≠ []) := by
  intro s objs
  constructor
  · intro hfire
    have : (consistencyResetPhase s objs).2 =
        decide (max_reset_frames ≤ should_reset_step s.counter objs) := rfl
    rw [this] at hfire
    have hle := of_decide_eq_true hfire
    exact hle
  · rw [show (consistencyResetPhase s objs).1.counter = should_reset_step s.counter objs from rfl,
      should_reset_step]
    cases objs with
    | nil => simp
    | cons a as => simp

/-- Witness for the amended C7 on a concrete firing frame. -/
theorem reset_counter_not_cleared_with_history_witness :
    max_reset_frames ≤ (consistencyResetPhase ⟨39, [[faceA]], some faceA⟩ []).1.counter :=
  (reset_counter_not_cleared_with_history ⟨39, [[faceA]], some faceA⟩ []).1 (by decide)

theorem length_allObjects_replicate (r : Rect) (n : ℕ) :
    (allObjects (List.replicate n [r])).length = n := by
  induction n with
  | zero => rfl
  | succ n ih => simpa [List.replicate_succ, allObjects] using ih

theorem mem_allObjects {o : Rect} {hist : List (List Rect)} :
    o ∈ allObjects hist ↔ ∃ f ∈ hist, o ∈ f := by
  induction hist with
  | nil => simp [allObjects]
  | cons f fs ih => simp [allObjects, ih]

theorem firstMaxFold_mem (b : PosKey × ℕ) (l : List (PosKey × ℕ)) :
    firstMaxFold b l = b ∨ firstMaxFold b l ∈ l := by
  induction l generalizing b with
  | nil => exact Or.inl rfl
  | cons i is ih =>
    rw [firstMaxFold]
    by_cases hk : b.2 < i.2
    · rw [if_pos hk]
      rcases ih i with h | h
      · exact Or.inr (by rw [h]; exact List.mem_cons_self i is)
      · exact Or.inr (List.mem_cons_of_mem i h)
    · rw [if_neg hk]
      rcases ih b with h | h
      · exact Or.inl h
      · exact Or.inr (List.mem_cons_of_mem i h)

theorem firstMaxFold_ge_init (b : PosKey × ℕ) (l : List (PosKey × ℕ)) :
    b.2 ≤ (firstMaxFold b l).2 := by
  induction l generalizing b with
  | nil => exact le_refl _
  | cons i is ih =>
    rw [firstMaxFold]
    refine le_trans ?_ (ih _)
    by_cases hk : b.2 < i.2
    · rw [if_pos hk]; exact le_of_lt hk
    · rw [if_neg hk]

theorem firstMaxFold_ge (b : PosKey × ℕ) (l : List (PosKey × ℕ)) :
    ∀ i ∈ l, i.2 ≤ (firstMaxFold b l).2 := by
  induction l generalizing b with
  | nil => intro i hi; exact absurd hi (List.not_mem_nil i)
  | cons i is ih =>
    intro j hj
    rw [firstMaxFold]
    rcases List.mem_cons.mp hj with rfl | hj
    · refine le_trans ?_ (firstMaxFold_ge_init _ is)
      by_cases hk : b.2 < j.2
      · rw [if_pos hk]
      · rw [if_neg hk]; exact le_of_not_lt hk
    · exact ih _ j hj

theorem firstMaxItem_mem {hist : List (List Rect)} {m : PosKey × ℕ}
    (h : firstMaxItem hist = some m) : m ∈ dictItems hist := by
  rw [firstMaxItem] at h
  cases hdi : dictItems hist with
  | nil => rw [hdi] at h; exact absurd h (by simp)
  | cons i is =>
    rw [hdi] at h
    have hm : firstMaxFold i is = m := Option.some.inj h
    rw [← hm]
    rcases firstMaxFold_mem i is with he | he
    · rw [he]; exact List.mem_cons_self i is
    · exact List.mem_cons_of_mem i he

theorem firstMaxItem_ge {hist : List (List Rect)} {m : PosKey × ℕ}
    (h : firstMaxItem hist = some m) : ∀ i ∈ dictItems hist, i.2 ≤ m.2 := by
  rw [firstMaxItem] at h
  cases hdi : dictItems hist with
  | nil => intro i hi; exact absurd hi (List.not_mem_nil i)
  | cons i is =>
    rw [hdi] at h
    have hm : firstMaxFold i is = m := Option.some.inj h
    rw [← hm]
    intro j hj
    rcases List.mem_cons.mp hj with rfl | hj
    · exact firstMaxFold_ge_init j is
    · exact firstMaxFold_ge i is j hj

theorem dictItems_count {hist : List (List Rect)} {m : PosKey × ℕ}
    (h : m ∈ dictItems hist) : m.2 = countKey hist m.1 := by
  rw [dictItems] at h
  obtain ⟨k, _, hk⟩ := List.mem_map.mp h
  rw [← hk]

theorem mem_insertKey (acc : List PosKey) (k k2 : PosKey) (h : k ∈ acc) :
    k ∈ insertKey acc k2 := by
  rw [insertKey]
  by_cases hm : k2 ∈ acc
  · rw [if_pos hm]; exact h
  · rw [if_neg hm]; exact List.mem_append_left _ h

theorem mem_insertKey_self (acc : List PosKey) (k : PosKey) : k ∈ insertKey acc k := by
  rw [insertKey]
  by_cases hm : k ∈ acc
  · rw [if_pos hm]; exact hm
  · rw [if_neg hm]; exact List.mem_append_right _ (List.mem_singleton.mpr rfl)

theorem dictKeysAux_mono (objs : List Rect) :
    ∀ acc k, k ∈ acc → k ∈ dictKeysAux acc objs := by
  induction objs with
  | nil => intro acc k h; exact h
  | cons o os ih =>
    intro acc k h
    rw [dictKeysAux]
    exact ih _ k (mem_insertKey acc k _ h)

theorem dictKeysAux_complete (objs : List Rect) :
    ∀ acc, ∀ o ∈ objs, posKey10 o ∈ dictKeysAux acc objs := by
  induction objs with
  | nil => intro acc o h; exact absurd h (List.not_mem_nil o)
  | cons o2 os ih =>
    intro acc o h
    rcases List.mem_cons.mp h with rfl | h
    · rw [dictKeysAux]
      exact dictKeysAux_mono os _ _ (mem_insertKey_self acc (posKey10 o))
    · rw [dictKeysAux]
      exact ih _ o h

theorem countKey_pos_mem (hist : List (List Rect)) (k : PosKey)
    (h : 0 < countKey hist k) : k ∈ dictKeysAux [] (allObjects hist) := by
  rw [countKey] at h
  obtain ⟨o, ho, hp⟩ := List.countP_pos_iff.mp h
  have hk : posKey10 o = k := of_decide_eq_true hp
  rw [← hk]
  exact dictKeysAux_complete (allObjects hist) [] o ho

theorem scanNewestAux_spec {k : PosKey} :
    ∀ {l : List (List Rect)} {o : Rect}, scanNewestAux k l = some o →
      posKey10 o = k ∧ ∃ f ∈ l, o ∈ f := by
  intro l
  induction l with
  | nil =>
    intro o h
    exact absurd h (by rw [scanNewestAux]; simp)
  | cons f fs ih =>
    intro o h
    rw [scanNewestAux] at h
    cases hf : frameFind k f with
    | some o2 =>
      rw [hf] at h
      have ho : o2 = o := Option.some.inj h
      rw [frameFind] at hf
      have hp := List.find?_some hf
      have hk : posKey10 o2 = k := of_decide_eq_true hp
      rw [← ho]
      exact ⟨hk, f, List.mem_cons_self f fs, List.mem_of_find?_eq_some hf⟩
    | none =>
      rw [hf] at h
      obtain ⟨hk, g, hg, hog⟩ := ih h
      exact ⟨hk, g, List.mem_cons_of_mem f hg, hog⟩

theorem scanNewest_spec {hist : List (List Rect)} {k : PosKey} {o : Rect}
    (h : scanNewest hist k = some o) : posKey10 o = k ∧ o ∈ allObjects hist := by
  rw [scanNewest] at h
  obtain ⟨hk, f, hf, ho⟩ := scanNewestAux_spec h
  exact ⟨hk, mem_allObjects.mpr ⟨f, List.mem_reverse.mp hf, ho⟩⟩

/-- C2: below 10 frames of history, or with every quantized key counted
fewer than 10 times, `find_most_consistent_object` returns nothing;
fewer than 10 frames of an identical rectangle yield nothing and
exactly 10 yield that rectangle; and whenever the winning key's count
reaches 10 the result is the newest-to-oldest resolution of that key,
whose count is maximal among all keys. -/
theorem consistency_vote_threshold :
    (∀ hist, hist.length < min_consistency_frames →
      find_most_consistent_object hist = none) ∧
    (∀ hist, (∀ k, countKey hist k < min_consistency_frames) →
      find_most_consistent_object hist = none) ∧
    (∀ (r : Rect) (n : ℕ), n < min_consistency_frames →
      find_most_consistent_object (List.replicate n [r]) = none) ∧
    (∀ r : Rect, find_most_consistent_object (List.replicate 10 [r]) = some r) ∧
    (∀ hist k c, min_consistency_frames ≤ c → ¬ hist.length < min_consistency_frames →
      firstMaxItem hist = some (k, c) →
      find_most_consistent_object hist = scanNewest hist k ∧
      countKey hist k = c ∧
      (∀ k2, countKey hist k2 ≤ c) ∧
      (∀ o, scanNewest hist k = some o → posKey10 o = k ∧ o ∈ allObjects hist)) := by
  have hnone2 : ∀ hist, (∀ k, countKey hist k < min_consistency_frames) →
      find_most_consistent_object hist = none := by
    intro hist hc
    by_cases hl : hist.length < min_consistency_frames
    · rw [find_most_consistent_object, if_pos hl]
    · rw [find_most_consistent_object, if_neg hl]
      cases hfm : firstMaxItem hist with
      | none => rfl
      | some m =>
        have hcnt : m.2 = countKey hist m.1 := dictItems_count (firstMaxItem_mem hfm)
        have hnle : ¬ min_consistency_frames ≤ m.2 := by
          rw [hcnt]
          exact not_le.mpr (hc m.1)
        show (if min_consistency_frames ≤ m.2 then scanNewest hist m.1 else none) = none
        rw [if_neg hnle]
  refine ⟨?_, hnone2, ?_, ?_, ?_⟩
  · intro hist h
    rw [find_most_consistent_object, if_pos h]
  · intro r n h
    apply hnone2
    intro k
    calc countKey (List.replicate n [r]) k ≤ (allObjects (List.replicate n [r])).length :=
          List.countP_le_length _
      _ = n := length_allObjects_replicate r n
      _ < min_consistency_frames := h
  · intro r
    have hall : allObjects (List.replicate 10 [r]) = List.replicate 10 r := rfl
    have hkeys : dictKeysAux [] (allObjects (List.replicate 10 [r])) = [posKey10 r] := by
      rw [hall]
      show dictKeysAux [] (r :: List.replicate 9 r) = [posKey10 r]
      simp [dictKeysAux, insertKey, List.replicate_succ]
    have hcount : countKey (List.replicate 10 [r]) (posKey10 r) = 10 := by
      rw [countKey, hall]
      show List.countP _ (r :: List.replicate 9 r) = 10
      simp [List.countP_cons, List.replicate_succ]
    have hitems : dictItems (List.replicate 10 [r]) = [(posKey10 r, 10)] := by
      rw [dictItems, hkeys, List.map_singleton, hcount]
    have hfmi : firstMaxItem (List.replicate 10 [r]) = some (posKey10 r, 10) := by
      rw [firstMaxItem, hitems]
      rfl
    have hscan : scanNewest (List.replicate 10 [r]) (posKey10 r) = some r := by
      rw [scanNewest, List.reverse_replicate]
      show scanNewestAux (posKey10 r) ([r] :: List.replicate 9 [r]) = some r
      rw [scanNewestAux]
      have hf : frameFind (posKey10 r) [r] = some r := by
        rw [frameFind]
        simp [List.find?]
      rw [hf]
    rw [find_most_consistent_object,
      if_neg (by simp [min_consistency_frames]), hfmi]
    exact hscan
  · intro hist k c hc hl hfm
    have hfind : find_most_consistent_object hist = scanNewest hist k := by
      rw [find_most_consistent_object, if_neg hl, hfm]
      show (if min_consistency_frames ≤ c then scanNewest hist k else none) = scanNewest hist k
      rw [if_pos hc]
    have hck : countKey hist k = c := (dictItems_count (firstMaxItem_mem hfm)).symm
    refine ⟨hfind, hck, ?_, fun o ho => scanNewest_spec ho⟩
    intro k2
    by_cases h0 : countKey hist k2 = 0
    · rw [h0]; exact Nat.zero_le c
    · have hmem : (k2, countKey hist k2) ∈ dictItems hist := by
        rw [dictItems]
        exact List.mem_map.mpr ⟨k2, countKey_pos_mem hist k2 (Nat.pos_of_ne_zero h0), rfl⟩
      exact firstMaxItem_ge hfm _ hmem

/-- Witness for C2: ten frames of a fixed rectangle yield it, nine do
not. -/
theorem consistency_vote_threshold_witness :
    find_most_consistent_object (List.replicate 10 [faceA]) = some faceA ∧
    find_most_consistent_object (List.replicate 9 [faceA]) = none :=
  ⟨consistency_vote_threshold.2.2.2.1 faceA,
   consistency_vote_threshold.2.2.1 faceA 9 (by rw [min_consistency_frames]; omega)⟩

/-- C5 (code bug): a call of `update_consistent_face_position` with a
tracked face, a non-empty candidate list and a most consistent object
but an absent smoothed anchor (`average_haar_x is None`) does not
return an updated rectangle — the source's unconditional write-back
`previous_haar_center_x = haar_avg_center_x` at line 513 reads a local
that was only assigned inside the `average_haar_x is not None` branch,
raising `UnboundLocalError`.  The spec (sections 7 and 9) states the
intent that detection absence degrades gracefully and itself flags this
code path as buggy. -/
theorem update_face_position_raises_without_anchor :
    update_consistent_face_position stNoAnchor (some faceA) [faceA] (some faceA) =
      .error "UnboundLocalError: haar_avg_center_x (line 513)" := by
  rfl

theorem srcPosAlpha_eq_sel (st : FaceTrackSt) (face tgt : Rect) :
    srcPosAlpha st face tgt (movementAngleOf st face) = posAlphaSel st face tgt := by
  rw [srcPosAlpha, posAlphaSel]
  have hiff : bothMovingTowardTarget st face tgt ↔ coordinatedSpec st face tgt := by
    cases hc : haarAvgCenter st with
    | none => simp [bothMovingTowardTarget, coordinatedSpec, hc]
    | some c => simp [bothMovingTowardTarget, coordinatedSpec, hc]
  exact if_congr hiff rfl rfl

theorem updatedRect_x (st : FaceTrackSt) (face tgt : Rect) :
    (updatedRect st face tgt).x =
      truncR ((srcPosAlpha st face tgt (movementAngleOf st face) : ℝ) * (face.x : ℝ) +
        (1 - (srcPosAlpha st face tgt (movementAngleOf st face) : ℝ)) * (tgt.x : ℝ)) := rfl

theorem updatedRect_y (st : FaceTrackSt) (face tgt : Rect) :
    (updatedRect st face tgt).y =
      truncR ((srcPosAlpha st face tgt (movementAngleOf st face) : ℝ) * (face.y : ℝ) +
        (1 - (srcPosAlpha st face tgt (movementAngleOf st face) : ℝ)) * (tgt.y : ℝ)) := rfl

theorem update_face_eq (st : FaceTrackSt) (face mco : Rect) (objs : List Rect) (tgt : Rect)
    (hobjs : ¬ objs = []) (hbm : bestMatch mco objs = some tgt) :
    update_consistent_face_position st (some face) objs (some mco) =
      match prevCenters st with
      | some _ =>
        match haarAvgCenter st with
        | none => .error "UnboundLocalError: haar_avg_center_x (line 412)"
        | some _ => faceUpdateTail st face tgt
      | none => faceUpdateTail st face tgt := by
  rw [update_consistent_face_position, if_neg hobjs, hbm]

theorem faceUpdateTail_ok {st : FaceTrackSt} {face tgt r : Rect} {st2 : FaceTrackSt}
    (h : faceUpdateTail st face tgt = .ok (some r, st2)) :
    r = updatedRect st face tgt := by
  rw [faceUpdateTail] at h
  by_cases h0 : newAverageFaceSize st face = 0
  · rw [if_pos h0] at h
    exact absurd h (by simp)
  · rw [if_neg h0] at h
    revert h
    cases hc : haarAvgCenter st with
    | none => intro h; exact absurd h (by simp)
    | some c =>
      intro h
      injection h with h1
      have h2 := congrArg Prod.fst h1
      exact (Option.some.inj h2).symm

/-- C1: whenever `update_consistent_face_position` returns an updated
rectangle for a tracked face and a target (the candidate nearest to the
most consistent object), the retained-old-position weight is chosen
exactly as the spec states — by the angle table (0.001/0.005/0.01/0.02/
0.05/0.1 below 5/10/15/25/40 degrees) when movement is coordinated
(anchor-average-to-target and tracked-to-target distances within 30 px
of each other), and by the distance table (0.02/0.1/0.25/0.5/0.8/0.95
below 10/25/50/80/120 px) otherwise — and each updated position
coordinate is `pos_alpha * old + (1 - pos_alpha) * target` truncated
toward zero. -/
theorem face_position_update_uses_spec_alpha :
    ∀ (st : FaceTrackSt) (face : Rect) (objs : List Rect) (mco r : Rect) (st2 : FaceTrackSt)
      (tgt : Rect),
      update_consistent_face_position st (some face) objs (some mco) = .ok (some r, st2) →
      bestMatch mco objs = some tgt →
      r.x = truncR ((posAlphaSel st face tgt : ℝ) * (face.x : ℝ) +
        (1 - (posAlphaSel st face tgt : ℝ)) * (tgt.x : ℝ)) ∧
      r.y = truncR ((posAlphaSel st face tgt : ℝ) * (face.y : ℝ) +
        (1 - (posAlphaSel st face tgt : ℝ)) * (tgt.y : ℝ)) := by
  intro st face objs mco r st2 tgt hok hbm
  by_cases hobjs : objs = []
  · subst hobjs
    rw [bestMatch] at hbm
    exact absurd hbm (by simp)
  · rw [update_face_eq st face mco objs tgt hobjs hbm] at hok
    have hr : r = updatedRect st face tgt := by
      revert hok
      cases hp : prevCenters st with
      | none => intro hok; exact faceUpdateTail_ok hok
      | some p =>
        cases hc : haarAvgCenter st with
        | none => intro hok; exact absurd hok (by simp)
        | some c => intro hok; exact faceUpdateTail_ok hok
    subst hr
    rw [updatedRect_x, updatedRect_y, srcPosAlpha_eq_sel]
    exact ⟨rfl, rfl⟩

theorem haarAvgCenter_at_faceA : haarAvgCenter stAnchorAtFaceA = some (125, 125) := by
  show some ((100 : ℚ) + ((⌊(50 : ℚ) / 2⌋ : ℤ) : ℚ), (100 : ℚ) + ((⌊(50 : ℚ) / 2⌋ : ℤ) : ℚ)) =
    some ((125 : ℚ), (125 : ℚ))
  norm_num

/-- The state after a successful update from `stAnchorAtFaceA`. -/
theorem update_face_eval_at_anchor :
    update_consistent_face_position stAnchorAtFaceA (some faceA) [faceA] (some faceA) =
      .ok (some (updatedRect stAnchorAtFaceA faceA faceA),
        ⟨some 2500, some 100, some 100, some 50, some 50,
         some 125, some 125, some 125, some 125⟩) := by
  rw [update_face_eq stAnchorAtFaceA faceA faceA [faceA] faceA (by simp) rfl]
  show faceUpdateTail stAnchorAtFaceA faceA faceA = _
  rw [faceUpdateTail,
    if_neg (by show ¬ (((50 * 50 : ℤ) : ℚ) = 0); norm_num),
    haarAvgCenter_at_faceA]
  rfl

/-- Witness for C1: the update succeeds at a concrete anchored state,
where the movement is coordinated with angle 0, so the selected
pos_alpha is 0.001 and the position formula applies. -/
theorem face_position_update_uses_spec_alpha_witness :
    (updatedRect stAnchorAtFaceA faceA faceA).x =
      truncR ((posAlphaSel stAnchorAtFaceA faceA faceA : ℝ) * (faceA.x : ℝ) +
        (1 - (posAlphaSel stAnchorAtFaceA faceA faceA : ℝ)) * (faceA.x : ℝ)) ∧
    posAlphaSel stAnchorAtFaceA faceA faceA = 0.001 := by
  constructor
  · exact (face_position_update_uses_spec_alpha stAnchorAtFaceA faceA [faceA] faceA
      (updatedRect stAnchorAtFaceA faceA faceA) _ faceA update_face_eval_at_anchor rfl).1
  · have hcoord : coordinatedSpec stAnchorAtFaceA faceA faceA := by
      refine ⟨(125, 125), haarAvgCenter_at_faceA, ?_⟩
      rw [show (centerX faceA, centerY faceA) = ((125 : ℤ), (125 : ℤ)) from rfl,
        distQZ_eval (125, 125) (125, 125) 0 le_rfl (by push_cast; norm_num),
        calculate_distance_self]
      norm_num
    rw [posAlphaSel, if_pos hcoord,
      show movementAngleOf stAnchorAtFaceA faceA = 0 from rfl,
      posAlphaCoordSpec, if_pos (by norm_num : (0 : ℝ) < 5)]

theorem heatAddStep_untouched {a : Rect} {W H : ℤ} {o : Rect} {i j : ℤ} {g : ℤ → ℤ → ℝ}
    (h : ¬ addsHeat a W H o i j) : heatAddStep a W H g o i j = g i j := by
  rw [heatAddStep]
  by_cases hcc : heatCenterCond a W H o
  · rw [if_pos hcc]
    exact if_neg (fun hb => h ⟨hcc, hb⟩)
  · rw [if_neg hcc]

theorem heatFold_untouched (a : Rect) (W H : ℤ) (i j : ℤ) :
    ∀ (objs : List Rect) (g : ℤ → ℤ → ℝ), (∀ o ∈ objs, ¬ addsHeat a W H o i j) →
      (objs.foldl (heatAddStep a W H) g) i j = g i j := by
  intro objs
  induction objs with
  | nil => intro g _; rfl
  | cons o os ih =>
    intro g h
    rw [List.foldl_cons,
      ih (heatAddStep a W H g o) (fun o2 ho2 => h o2 (List.mem_cons_of_mem o ho2)),
      heatAddStep_untouched (h o (List.mem_cons_self o os))]

/-- C9: on a frame where `update_heatmap` runs with an anchor whose
center moved at most 100 px from the stored reference, every cell that
receives no added heat becomes exactly 0.98 times its previous value
inside the 5-px-padded anchor mask and exactly 0.1 times it outside;
when the center moved strictly more than 100 px the grid is discarded
and rebuilt from zeros, so such a cell reads 0; the reference anchor is
re-pointed at the current anchor either way. -/
theorem heatmap_decay_and_reset :
    ∀ (st : HeatmapSt) (a : Rect) (objs : List Rect) (W H : ℤ) (g : ℤ → ℤ → ℝ) (old : Rect)
      (i j : ℤ),
      st.heatmap = some g → st.heatmapHaarPosition = some old →
      (∀ o ∈ objs, ¬ addsHeat a W H o i j) →
      (calculate_distance a old ≤ 100 →
        gridVal (update_heatmap st (some a) objs W H) i j =
          if heatMask a W H i j then 0.98 * g i j else 0.1 * g i j) ∧
      (100 < calculate_distance a old →
        gridVal (update_heatmap st (some a) objs W H) i j = 0) ∧
      (update_heatmap st (some a) objs W H).heatmapHaarPosition = some a := by
  intro st a objs W H g old i j hg hr hnt
  have hgv : gridVal (update_heatmap st (some a) objs W H) i j =
      heatDecay a W H ((heatGridAfterReset st a).getD (fun _ _ => 0)) i j := by
    show (objs.foldl (heatAddStep a W H)
      (heatDecay a W H ((heatGridAfterReset st a).getD (fun _ _ => 0)))) i j = _
    exact heatFold_untouched a W H i j objs _ hnt
  refine ⟨?_, ?_, rfl⟩
  · intro hle
    have hgrid : heatGridAfterReset st a = some g := by
      show (match st.heatmapHaarPosition with
        | some old2 => if 100 < calculate_distance a old2 then none else st.heatmap
        | none => st.heatmap) = some g
      rw [hr]
      show (if 100 < calculate_distance a old then none else st.heatmap) = some g
      rw [if_neg (not_lt.mpr hle), hg]
    rw [hgv, hgrid]
    rfl
  · intro hgt
    have hgrid : heatGridAfterReset st a = none := by
      show (match st.heatmapHaarPosition with
        | some old2 => if 100 < calculate_distance a old2 then none else st.heatmap
        | none => st.heatmap) = none
      rw [hr]
      show (if 100 < calculate_distance a old then none else st.heatmap) = none
      rw [if_pos hgt]
    rw [hgv, hgrid]
    show (if heatMask a W H i j then (0.98 : ℝ) * 0 else (0.1 : ℝ) * 0) = 0
    by_cases hm : heatMask a W H i j
    · rw [if_pos hm]; norm_num
    · rw [if_neg hm]; norm_num

/-- Witness for C9: a cell outside the padded mask of a stationary
anchor, starting at value 1, reads exactly 0.1 after one frame with no
added heat. -/
theorem heatmap_decay_and_reset_witness :
    gridVal (update_heatmap stHeat1 (some anchorC9) [] 400 300) 0 0 = 0.1 * 1 := by
  have h := (heatmap_decay_and_reset stHeat1 anchorC9 [] 400 300 (fun _ _ => 1) anchorC9 0 0
    rfl rfl (fun o ho => absurd ho (List.not_mem_nil o))).1
  rw [h (by rw [calculate_distance_self]; norm_num),
    if_neg (by unfold heatMask anchorC9; decide)]

theorem truncQ_eval (q : ℚ) (n : ℤ) (h0 : 0 ≤ q) (hf : ⌊q⌋ = n) : truncQ q = n := by
  rw [truncQ, if_pos h0, hf]

/-- C6 as amended: the adaptive interval is 0.5 s with no stored anchor
position or no prior raw detection; otherwise it is chosen by the spec
table from `position_change` (center distance between the argument
position — which the main loop wires to the stored int-truncated
smoothed anchor, not the raw detection — and the last raw detection)
and `distance_from_avg` (center distance between the argument position
and the float smoothed averages); and the anchor detector runs exactly
when the elapsed time since its last invocation reaches the interval
computed from the stored position. -/
theorem adaptive_interval_from_stored_anchor :
    (∀ st : HaarSt, calculate_adaptive_haar_interval st none = 0.5) ∧
    (∀ (st : HaarSt) (cur : Rect), st.haarLastPosition = none →
      calculate_adaptive_haar_interval st (some cur) = 0.5) ∧
    (∀ (st : HaarSt) (cur last : Rect), st.haarLastPosition = some last →
      calculate_adaptive_haar_interval st (some cur) =
        intervalTableSpec (calculate_distance cur last) (distFromAvgOf st cur)) ∧
    (∀ (now lastT : ℝ) (st : HaarSt), haarDetectorDue now lastT st ↔
      calculate_adaptive_haar_interval st st.haarFacePosition ≤ now - lastT) := by
  refine ⟨fun st => rfl, ?_, ?_, fun now lastT st => Iff.rfl⟩
  · intro st cur h
    rw [calculate_adaptive_haar_interval, h]
  · intro st cur last h
    rw [calculate_adaptive_haar_interval, h]
    rfl

/-- Witness for the amended C6 at the concrete reached state. -/
theorem adaptive_interval_from_stored_anchor_witness :
    calculate_adaptive_haar_interval stH2 (some ⟨10, 100, 40, 40⟩) =
      intervalTableSpec (calculate_distance ⟨10, 100, 40, 40⟩ rawR2)
        (distFromAvgOf stH2 ⟨10, 100, 40, 40⟩) :=
  adaptive_interval_from_stored_anchor.2.2.1 stH2 ⟨10, 100, 40, 40⟩ rawR2 rfl

theorem haar_events_reach_stH2 :
    haarDetectionEvent (haarDetectionEvent stH0 rawR1) rawR2 = stH2 := by
  have t0 : truncQ ((0 : ℤ) : ℚ) = 0 := truncQ_eval _ _ (by norm_num) (by norm_num)
  have t100 : truncQ ((100 : ℤ) : ℚ) = 100 := truncQ_eval _ _ (by norm_num) (by norm_num)
  have t40 : truncQ ((40 : ℤ) : ℚ) = 40 := truncQ_eval _ _ (by norm_num) (by norm_num)
  have h1 : haarDetectionEvent stH0 rawR1 =
      ⟨some 0, some 100, some 40, some 40, some rawR1, some ⟨0, 100, 40, 40⟩⟩ := by
    show (⟨some ((0 : ℤ) : ℚ), some ((100 : ℤ) : ℚ), some ((40 : ℤ) : ℚ), some ((40 : ℤ) : ℚ),
        some rawR1,
        some ⟨truncQ ((0 : ℤ) : ℚ), truncQ ((100 : ℤ) : ℚ), truncQ ((40 : ℤ) : ℚ),
          truncQ ((40 : ℤ) : ℚ)⟩⟩ : HaarSt) = _
    rw [t0, t100, t40]
    norm_num
  rw [h1]
  have ta : (0.3 : ℚ) * ((35 : ℤ) : ℚ) + 0.7 * 0 = 10.5 := by push_cast; norm_num
  have tb : (0.3 : ℚ) * ((100 : ℤ) : ℚ) + 0.7 * 100 = 100 := by push_cast; norm_num
  have tc : (0.3 : ℚ) * ((40 : ℤ) : ℚ) + 0.7 * 40 = 40 := by push_cast; norm_num
  have ta2 : truncQ ((0.3 : ℚ) * ((35 : ℤ) : ℚ) + 0.7 * 0) = 10 := by
    rw [ta]; exact truncQ_eval _ _ (by norm_num) (by norm_num)
  have tb2 : truncQ ((0.3 : ℚ) * ((100 : ℤ) : ℚ) + 0.7 * 100) = 100 := by
    rw [tb]; exact truncQ_eval _ _ (by norm_num) (by norm_num)
  have tc2 : truncQ ((0.3 : ℚ) * ((40 : ℤ) : ℚ) + 0.7 * 40) = 40 := by
    rw [tc]; exact truncQ_eval _ _ (by norm_num) (by norm_num)
  show (⟨some ((0.3 : ℚ) * ((35 : ℤ) : ℚ) + 0.7 * 0), some ((0.3 : ℚ) * ((100 : ℤ) : ℚ) + 0.7 * 100),
      some ((0.3 : ℚ) * ((40 : ℤ) : ℚ) + 0.7 * 40), some ((0.3 : ℚ) * ((40 : ℤ) : ℚ) + 0.7 * 40),
      some rawR2,
      some ⟨truncQ ((0.3 : ℚ) * ((35 : ℤ) : ℚ) + 0.7 * 0),
        truncQ ((0.3 : ℚ) * ((100 : ℤ) : ℚ) + 0.7 * 100),
        truncQ ((0.3 : ℚ) * ((40 : ℤ) : ℚ) + 0.7 * 40),
        truncQ ((0.3 : ℚ) * ((40 : ℤ) : ℚ) + 0.7 * 40)⟩⟩ : HaarSt) = stH2
  rw [ta2, tb2, tc2, ta, tb, tc]
  rfl

theorem haarAvgCenterH_stH2 : haarAvgCenterH stH2 = some (30.5, 120) := by
  show some ((10.5 : ℚ) + ((⌊(40 : ℚ) / 2⌋ : ℤ) : ℚ), (100 : ℚ) + ((⌊(40 : ℚ) / 2⌋ : ℤ) : ℚ)) = _
  norm_num

/-- Counterexample to C6: after raw detections `rawR1` then `rawR2` the
main loop stores the int-truncated smoothed anchor `(10, 100, 40, 40)`
in `haar_face_position` and computes the next interval from it, giving
`position_change = 25 > 20` and interval 0.1 s; under the claim's
definitions — `position_change` the center distance between the current
raw anchor (`rawR2`) and the last raw position (also `rawR2`, hence 0)
and `distance_from_avg` the center distance between the raw anchor and
the smoothed averages (24.5) — the table yields 0.2 s instead. -/
theorem adaptive_interval_counterexample :
    haarDetectionEvent (haarDetectionEvent stH0 rawR1) rawR2 = stH2 ∧
    calculate_adaptive_haar_interval stH2 stH2.haarFacePosition = 0.1 ∧
    claimC6Interval stH2 = 0.2 ∧ (0.1 : ℝ) ≠ 0.2 := by
  refine ⟨haar_events_reach_stH2, ?_, ?_, by norm_num⟩
  · have hpc : calculate_distance ⟨10, 100, 40, 40⟩ rawR2 = 25 := by
      apply calculate_distance_eval _ _ _ (by norm_num)
      have h1 : centerX ⟨10, 100, 40, 40⟩ - centerX rawR2 = -25 := by decide
      have h2 : centerY ⟨10, 100, 40, 40⟩ - centerY rawR2 = 0 := by decide
      rw [h1, h2]
      norm_num
    rw [show stH2.haarFacePosition = some (⟨10, 100, 40, 40⟩ : Rect) from rfl,
      calculate_adaptive_haar_interval,
      show stH2.haarLastPosition = some rawR2 from rfl]
    show (if 20 < calculate_distance ⟨10, 100, 40, 40⟩ rawR2 ∨
        30 < distFromAvgOf stH2 ⟨10, 100, 40, 40⟩ then (0.1 : ℝ)
      else if 10 < calculate_distance ⟨10, 100, 40, 40⟩ rawR2 ∨
          15 < distFromAvgOf stH2 ⟨10, 100, 40, 40⟩ then 0.2
      else if 4 < calculate_distance ⟨10, 100, 40, 40⟩ rawR2 ∨
          8 < distFromAvgOf stH2 ⟨10, 100, 40, 40⟩ then 0.4
      else 1.0) = 0.1
    rw [if_pos (Or.inl (by rw [hpc]; norm_num))]
  · have hdfa : distQZ (30.5, 120) (centerX rawR2, centerY rawR2) = 24.5 := by
      apply distQZ_eval _ _ _ (by norm_num)
      rw [show (centerX rawR2, centerY rawR2) = ((55 : ℤ), (120 : ℤ)) from rfl]
      push_cast
      norm_num
    rw [claimC6Interval, show stH2.haarLastPosition = some rawR2 from rfl]
    show intervalTableSpec (calculate_distance rawR2 rawR2) (distFromAvgOf stH2 rawR2) = 0.2
    rw [distFromAvgOf, haarAvgCenterH_stH2, calculate_distance_self]
    show intervalTableSpec 0 (distQZ (30.5, 120) (centerX rawR2, centerY rawR2)) = 0.2
    rw [hdfa, intervalTableSpec,
      if_neg (by push_neg; constructor <;> norm_num),
      if_pos (Or.inr (by norm_num))]

theorem updatedRect_w (st : FaceTrackSt) (face tgt : Rect) :
    (updatedRect st face tgt).w =
      truncR ((sizeAlphaSrc (((face.w * face.h : ℤ) : ℚ) / newAverageFaceSize st face)
          (((tgt.w * tgt.h : ℤ) : ℚ) / newAverageFaceSize st face)
          (calculate_distance face tgt) : ℝ) * (face.w : ℝ) +
        (1 - (sizeAlphaSrc (((face.w * face.h : ℤ) : ℚ) / newAverageFaceSize st face)
          (((tgt.w * tgt.h : ℤ) : ℚ) / newAverageFaceSize st face)
          (calculate_distance face tgt) : ℝ)) * (tgt.w : ℝ)) := rfl

theorem updatedRect_h (st : FaceTrackSt) (face tgt : Rect) :
    (updatedRect st face tgt).h =
      truncR ((sizeAlphaSrc (((face.w * face.h : ℤ) : ℚ) / newAverageFaceSize st face)
          (((tgt.w * tgt.h : ℤ) : ℚ) / newAverageFaceSize st face)
          (calculate_distance face tgt) : ℝ) * (face.h : ℝ) +
        (1 - (sizeAlphaSrc (((face.w * face.h : ℤ) : ℚ) / newAverageFaceSize st face)
          (((tgt.w * tgt.h : ℤ) : ℚ) / newAverageFaceSize st face)
          (calculate_distance face tgt) : ℝ)) * (tgt.h : ℝ)) := rfl

theorem rect_eq_of_fields {r1 r2 : Rect} (hx : r1.x = r2.x) (hy : r1.y = r2.y)
    (hw : r1.w = r2.w) (hh : r1.h = r2.h) : r1 = r2 := by
  cases r1
  cases r2
  simp_all

theorem dist_faceC8_targetC8 : calculate_distance faceC8 targetC8 = 0 := by
  apply calculate_distance_eval _ _ _ le_rfl
  have h1 : centerX faceC8 - centerX targetC8 = 0 := by decide
  have h2 : centerY faceC8 - centerY targetC8 = 0 := by decide
  rw [h1, h2]
  norm_num

theorem haarAvgCenter_stC8 : haarAvgCenter stC8 = some (300, 50) := by
  show some ((290 : ℚ) + ((⌊(20 : ℚ) / 2⌋ : ℤ) : ℚ), (30 : ℚ) + ((⌊(40 : ℚ) / 2⌋ : ℤ) : ℚ)) = _
  norm_num

theorem newAvgFaceSize_C8 : newAverageFaceSize stC8 faceC8 = 92000 := by
  show (0.1 : ℚ) * ((200 * 100 : ℤ) : ℚ) + 0.9 * 100000 = 92000
  push_cast
  norm_num

theorem notCoordinated_C8 : ¬ bothMovingTowardTarget stC8 faceC8 targetC8 := by
  rw [bothMovingTowardTarget, haarAvgCenter_stC8]
  show ¬ (|distQZ (300, 50) (centerX targetC8, centerY targetC8) -
    calculate_distance faceC8 targetC8| < 30)
  rw [show (centerX targetC8, centerY targetC8) = ((300 : ℤ), (150 : ℤ)) from rfl,
    dist_faceC8_targetC8,
    distQZ_eval (300, 50) (300, 150) 100 (by norm_num) (by push_cast; norm_num)]
  norm_num

theorem posAlpha_C8 :
    srcPosAlpha stC8 faceC8 targetC8 (movementAngleOf stC8 faceC8) = 0.02 := by
  rw [srcPosAlpha, if_neg notCoordinated_C8, dist_faceC8_targetC8, posAlphaDistSrc,
    if_pos (by norm_num : (0 : ℝ) < 10)]

theorem sizeAlpha_C8 :
    sizeAlphaSrc (((faceC8.w * faceC8.h : ℤ) : ℚ) / newAverageFaceSize stC8 faceC8)
      (((targetC8.w * targetC8.h : ℤ) : ℚ) / newAverageFaceSize stC8 faceC8)
      (calculate_distance faceC8 targetC8) = 0.95 := by
  have hq : (((faceC8.w * faceC8.h : ℤ) : ℚ) / newAverageFaceSize stC8 faceC8) < 0.8 := by
    rw [newAvgFaceSize_C8]
    show ((200 * 100 : ℤ) : ℚ) / 92000 < 0.8
    push_cast
    norm_num
  rw [sizeAlphaSrc, if_pos hq]

theorem updatedRect_C8 : updatedRect stC8 faceC8 targetC8 = resultC8 := by
  have hx : (updatedRect stC8 faceC8 targetC8).x = 288 := by
    rw [updatedRect_x, posAlpha_C8]
    have he : ((0.02 : ℚ) : ℝ) * (faceC8.x : ℝ) + (1 - ((0.02 : ℚ) : ℝ)) * (targetC8.x : ℝ) =
        288.2 := by
      show ((0.02 : ℚ) : ℝ) * ((200 : ℤ) : ℝ) + (1 - ((0.02 : ℚ) : ℝ)) * ((290 : ℤ) : ℝ) = 288.2
      push_cast
      norm_num
    rw [he]
    exact truncR_eval _ 288 (by norm_num) (by norm_num) (by norm_num)
  have hy : (updatedRect stC8 faceC8 targetC8).y = 100 := by
    rw [updatedRect_y, posAlpha_C8]
    have he : ((0.02 : ℚ) : ℝ) * (faceC8.y : ℝ) + (1 - ((0.02 : ℚ) : ℝ)) * (targetC8.y : ℝ) =
        100 := by
      show ((0.02 : ℚ) : ℝ) * ((100 : ℤ) : ℝ) + (1 - ((0.02 : ℚ) : ℝ)) * ((100 : ℤ) : ℝ) = 100
      push_cast
      norm_num
    rw [he]
    exact truncR_eval _ 100 (by norm_num) (by norm_num) (by norm_num)
  have hw : (updatedRect stC8 faceC8 targetC8).w = 191 := by
    rw [updatedRect_w, sizeAlpha_C8]
    have he : ((0.95 : ℚ) : ℝ) * (faceC8.w : ℝ) + (1 - ((0.95 : ℚ) : ℝ)) * (targetC8.w : ℝ) =
        191 := by
      show ((0.95 : ℚ) : ℝ) * ((200 : ℤ) : ℝ) + (1 - ((0.95 : ℚ) : ℝ)) * ((20 : ℤ) : ℝ) = 191
      push_cast
      norm_num
    rw [he]
    exact truncR_eval _ 191 (by norm_num) (by norm_num) (by norm_num)
  have hh : (updatedRect stC8 faceC8 targetC8).h = 100 := by
    rw [updatedRect_h, sizeAlpha_C8]
    have he : ((0.95 : ℚ) : ℝ) * (faceC8.h : ℝ) + (1 - ((0.95 : ℚ) : ℝ)) * (targetC8.h : ℝ) =
        100 := by
      show ((0.95 : ℚ) : ℝ) * ((100 : ℤ) : ℝ) + (1 - ((0.95 : ℚ) : ℝ)) * ((100 : ℤ) : ℝ) = 100
      push_cast
      norm_num
    rw [he]
    exact truncR_eval _ 100 (by norm_num) (by norm_num) (by norm_num)
  exact rect_eq_of_fields hx hy hw hh

theorem update_face_eval_C8 :
    update_consistent_face_position stC8 (some faceC8) [targetC8] (some faceC8) =
      .ok (some resultC8,
        ⟨some 92000, some 290, some 30, some 20, some 40,
         some 300, some 50, some 300, some 150⟩) := by
  rw [update_face_eq stC8 faceC8 faceC8 [targetC8] targetC8 (by simp) rfl]
  show faceUpdateTail stC8 faceC8 targetC8 = _
  rw [faceUpdateTail, newAvgFaceSize_C8, if_neg (by norm_num : ¬ (92000 : ℚ) = 0),
    haarAvgCenter_stC8, updatedRect_C8]
  rfl

/-- Counterexample to C8: from an in-bounds tracked face `(200, 100,
200, 100)` and an in-bounds candidate `(290, 100, 20, 100)` in a
400×300 frame, the position/size update moves the position fast
(pos_alpha 0.02, the centers coincide) while keeping the size slow
(size_alpha 0.95, the area is far below the large average), producing
`(288, 100, 191, 100)` with `288 + 191 = 479 > 400` — the update never
clips its output to the frame. -/
theorem face_update_escapes_frame_bounds :
    insideFrame 400 300 faceC8 ∧ insideFrame 400 300 targetC8 ∧
    update_consistent_face_position stC8 (some faceC8) [targetC8] (some faceC8) =
      .ok (some resultC8,
        ⟨some 92000, some 290, some 30, some 20, some 40,
         some 300, some 50, some 300, some 150⟩) ∧
    ¬ insideFrame 400 300 resultC8 :=
  ⟨by unfold insideFrame faceC8; decide, by unfold insideFrame targetC8; decide,
   update_face_eval_C8, by unfold insideFrame resultC8; decide⟩

theorem reconnectLostFace_mem {lastFace : Rect} {objs : List Rect} {o : Rect}
    (h : reconnectLostFace lastFace objs = some o) : o ∈ objs := by
  cases objs with
  | nil => exact absurd h (by rw [reconnectLostFace]; simp)
  | cons a as =>
    rw [reconnectLostFace] at h
    by_cases hd : calculate_distance lastFace
        (argminFold (fun o2 => calculate_distance lastFace o2) a as) < 150
    · rw [if_pos hd] at h
      have ho := Option.some.inj h
      rw [← ho]
      rcases argminFold_mem (fun o2 => calculate_distance lastFace o2) a as with hm | hm
      · rw [hm]; exact List.mem_cons_self a as
      · exact List.mem_cons_of_mem a hm
    · rw [if_neg hd] at h
      exact absurd h (by simp)

theorem find_most_consistent_object_mem {hist : List (List Rect)} {o : Rect}
    (h : find_most_consistent_object hist = some o) : o ∈ allObjects hist := by
  rw [find_most_consistent_object] at h
  by_cases hl : hist.length < min_consistency_frames
  · rw [if_pos hl] at h
    exact absurd h (by simp)
  · rw [if_neg hl] at h
    revert h
    cases hfm : firstMaxItem hist with
    | none => intro h; exact absurd h (by simp)
    | some m =>
      intro h
      have h2 : (if min_consistency_frames ≤ m.2 then scanNewest hist m.1 else none) =
          some o := h
      by_cases hc : min_consistency_frames ≤ m.2
      · rw [if_pos hc] at h2
        exact (scanNewest_spec h2).2
      · rw [if_neg hc] at h2
        exact absurd h2 (by simp)

/-- C8 as amended: rectangles the tracker adopts directly from a
candidate stay inside the frame when every candidate does — the
reconnected face is one of the current candidates and the voted
consistent detection is one of the history's raw rectangles — but the
position/size update itself applies no clipping, and (per the
counterexample) its output can leave the frame even when the previous
face and all candidates are inside it. -/
theorem adopted_candidates_stay_inside_frame :
    (∀ (W H : ℤ) (lastFace : Rect) (objs : List Rect) (o : Rect),
      (∀ c ∈ objs, insideFrame W H c) → reconnectLostFace lastFace objs = some o →
      insideFrame W H o) ∧
    (∀ (W H : ℤ) (hist : List (List Rect)) (o : Rect),
      (∀ c ∈ allObjects hist, insideFrame W H c) → find_most_consistent_object hist = some o →
      insideFrame W H o) :=
  ⟨fun _ _ _ _ o hall h => hall o (reconnectLostFace_mem h),
   fun _ _ _ o hall h => hall o (find_most_consistent_object_mem h)⟩

/-- Witness for the amended C8 at the concrete reconnection instance. -/
theorem adopted_candidates_stay_inside_frame_witness :
    insideFrame 400 300 (⟨240, 100, 50, 50⟩ : Rect) :=
  adopted_candidates_stay_inside_frame.1 400 300 faceA [⟨240, 100, 50, 50⟩] ⟨240, 100, 50, 50⟩
    (by
      intro c hc
      rw [List.mem_singleton] at hc
      subst hc
      unfold insideFrame
      decide)
    reconnect_eval_shift140

end QEye
